import Mathlib

/-!
Formal model of the MuSA per-cell assimilation engine: the meteorological
tools (modules/met_tools.py) and the per-cell driver
(modules/cell_assim.py).

Modelling conventions.  Floating-point numbers are modelled as rationals.
External numerical routines (scipy.special.expit and logit, numpy exp,
log and spacing) are modelled as abstract rational functions collected in
MathEnv; theorems add the properties they need as hypotheses (for
instance that expit inverts logit on the open unit interval, or that the
spacing-based nudge is positive and smaller than the width of the
bounds).  The numpy global random generator is modelled as an abstract
deterministic generator over an explicit natural-number state, collected
in NumpyRandom; numpy.random.seed replaces the state, each draw consumes
and returns a state.  In-place mutation of a numpy array argument is
modelled by returning the final contents of that array as a second
component of the result.  A raised Python exception is modelled as the
error branch of Except String.
-/

/-- Abstract model of the external numerical routines used by
met_tools.py: scipy.special.expit, scipy.special.logit, numpy exp, numpy
log and numpy spacing.  They are arbitrary rational functions; each
theorem states the analytic facts it needs about them as hypotheses. -/
structure MathEnv where
  expitF : ℚ → ℚ
  logitF : ℚ → ℚ
  expF : ℚ → ℚ
  logF : ℚ → ℚ
  spacingF : ℚ → ℚ

/-- Abstract model of the numpy.random module: a deterministic generator
over a natural-number state.  seedFn models numpy.random.seed (it maps
the configured seed to a generator state), normalFn and lognormalFn
model drawing one scalar with the given mean and standard deviation,
returning the draw together with the next state. -/
structure NumpyRandom where
  seedFn : ℕ → ℕ
  normalFn : ℚ → ℚ → ℕ → ℚ × ℕ
  lognormalFn : ℚ → ℚ → ℕ → ℚ × ℕ

/-- Model of the config module fields read by met_tools.py and
cell_assim.py. -/
structure Config where
  seed : Option ℕ
  implementation : String
  add_dynamic_noise : Bool
  load_prev_run : Bool
  restart_run : Bool
  real_time_restart : Bool
  save_ensemble : Bool
  output_path : String
  save_ensemble_path : String
  real_time_restart_path : String
  da_algorithm : String
  vars_to_perturbate : List String
  perturbation_strategy : List String

/-- Model of the constants module fields read by met_tools.py: the
per-variable physical bounds, nominal perturbation errors and dynamic
process-noise magnitudes. -/
structure Constants where
  upper_bounds : String → ℚ
  lower_bounds : String → ℚ
  mean_errors : String → ℚ
  sd_errors : String → ℚ
  dyn_noise : String → ℚ

/-- First numerical-stability pass shared by glogit (met_tools.py lines
112-113) and gexpit (lines 125-127): when some entry equals bPmin, the
entries equal to bPmin are nudged upward by the absolute spacing at that
value times 100 and every other entry is left alone; when no entry
equals bPmin the array is untouched. -/
def nudge_min (E : MathEnv) (bPmin : ℚ) (x : List ℚ) : List ℚ :=
  if bPmin ∈ x then
    x.map (fun v => if v = bPmin then v + |E.spacingF v * 100| else v)
  else x

/-- Second numerical-stability pass shared by glogit (met_tools.py lines
114-115) and gexpit (lines 128-130): entries equal to bPmax are nudged
downward by the absolute spacing at that value times 100. -/
def nudge_max (E : MathEnv) (bPmax : ℚ) (x : List ℚ) : List ℚ :=
  if bPmax ∈ x then
    x.map (fun v => if v = bPmax then v - |E.spacingF v * 100| else v)
  else x

/-- Both boundary guards in source order: the bPmin pass, then the bPmax
pass on its result.  This is the in-place state of the argument array
after glogit or gexpit returns. -/
def boundary_nudge (E : MathEnv) (x : List ℚ) (bPmin bPmax : ℚ) : List ℚ :=
  nudge_max E bPmax (nudge_min E bPmin x)

/-- Pointwise effect of boundary_nudge on one entry: the bPmin step then
the bPmax step. -/
def nudgePoint (E : MathEnv) (bPmin bPmax v : ℚ) : ℚ :=
  let v1 := if v = bPmin then v + |E.spacingF v * 100| else v
  if v1 = bPmax then v1 - |E.spacingF v1 * 100| else v1

/-- Model of glogit (met_tools.py lines 108-119): nudge the entries
sitting exactly on a bound, min-max scale into the unit interval, apply
the logit.  The first component is the returned array xt, the second is
the final in-place contents of the argument array x. -/
def glogit (E : MathEnv) (x : List ℚ) (bPmin bPmax : ℚ) : List ℚ × List ℚ :=
  let x1 := boundary_nudge E x bPmin bPmax
  let xs := x1.map (fun v => (v - bPmin) / (bPmax - bPmin))
  (xs.map E.logitF, x1)

/-- Model of gexpit (met_tools.py lines 122-134): nudge the entries of
the transformed-space argument xt that sit exactly on a physical bound
(the source compares xt against bPmin and bPmax), apply the expit, then
rescale into the physical bounds.  The first component is the returned
array x, the second is the final in-place contents of the argument
array xt. -/
def gexpit (E : MathEnv) (xt : List ℚ) (bPmin bPmax : ℚ) : List ℚ × List ℚ :=
  let xt1 := boundary_nudge E xt bPmin bPmax
  let xs := xt1.map E.expitF
  (xs.map (fun s => (bPmax - bPmin) * s + bPmin), xt1)

/-- Model of the seed handling at the top of create_noise (met_tools.py
lines 139-140) and inside create_noise_from_posterior (lines 167-168 and
211-212): with a configured seed the generator state is reset from the
seed, otherwise the incoming state is kept. -/
def np_seed_reset (cfg : Config) (rng : NumpyRandom) (st : ℕ) : ℕ :=
  match cfg.seed with
  | some s => rng.seedFn s
  | none => st

/-- Model of create_noise (met_tools.py lines 137-162).  One scalar is
drawn and broadcast to n_steps entries; the logitnormal strategies map
the broadcast draw through gexpit with the physical bounds of the
variable; an unknown strategy raises, modelled as the error branch.  The
result carries the generator state after the draw. -/
def create_noise (cfg : Config) (cnt : Constants) (E : MathEnv)
    (rng : NumpyRandom) (perturbation_strategy : String) (n_steps : ℕ)
    (mean std_dev : ℚ) (var : String) (st : ℕ) :
    Except String (List ℚ × ℕ) :=
  let st1 := np_seed_reset cfg rng st
  if perturbation_strategy = "normal" then
    let d := rng.normalFn mean std_dev st1
    Except.ok (List.replicate n_steps d.1, d.2)
  else if perturbation_strategy = "lognormal" then
    let d := rng.lognormalFn mean std_dev st1
    Except.ok (List.replicate n_steps d.1, d.2)
  else if perturbation_strategy ∈ (["logitnormal_mult", "logitnormal_adi"] : List String) then
    let bPmax := cnt.upper_bounds var
    let bPmin := cnt.lower_bounds var
    let d := rng.normalFn mean std_dev st1
    let norm_noise := List.replicate n_steps d.1
    Except.ok ((gexpit E norm_noise bPmin bPmax).1, d.2)
  else
    Except.error ("choose the shape of the perturbation parameters")

/-- Model of numpy.unique on a one-dimensional array: the distinct
values in ascending order. -/
def npUnique (l : List ℚ) : List ℚ :=
  (l.dedup).insertionSort (fun a b => a ≤ b)

/-- Model of create_noise_from_posterior (met_tools.py lines 165-237),
restricted to the data that determines its control flow and the shape of
its output: the per-step posterior mean series post_mean.  Segment
boundaries are detected through repeated identical means only (lines
175-189); the per-segment random draw (lines 214-233, the same dispatch
as create_noise) fixes the values but not the number of steps, so the
model returns, for each reconstructed segment in loop order, the segment
mean paired with the number of steps the loop emits for it, which the
source sets to counts[0] on every iteration (line 209).  In the
dynamic-noise branch (line 182) the source sets counts = len(posteriors),
a plain Python int, and line 192 then evaluates len(counts) inside
np.repeat(range(len(counts)), counts); len of an int raises TypeError,
modelled as the error branch. -/
def create_noise_from_posterior (post_mean : List ℚ) :
    Except String (List (ℚ × ℕ)) :=
  let post_mean_vals := npUnique post_mean
  if post_mean.length = post_mean_vals.length then
    Except.error ("TypeError: object of type int has no len")
  else
    let counts := post_mean_vals.map (fun v => post_mean.count v)
    Except.ok (post_mean_vals.map (fun v => (v, counts.headI)))

/-- Model of numpy.cumsum on a one-dimensional array. -/
def cumsum (l : List ℚ) : List ℚ :=
  (l.scanl (fun a b => a + b) 0).tail

/-- Model of numpy.random.normal(mean, std, k): k successive scalar
draws threaded through the generator state. -/
def drawNormalList (rng : NumpyRandom) (mean std_dev : ℚ) :
    ℕ → ℕ → List ℚ × ℕ
  | 0, st => ([], st)
  | k + 1, st =>
      let d := rng.normalFn mean std_dev st
      let rest := drawNormalList rng mean std_dev k d.2
      (d.1 :: rest.1, rest.2)

/-- Model of add_process_noise (met_tools.py lines 240-279): under the
spatial implementation or with dynamic noise disabled the coefficients
pass through unchanged; otherwise a cumulative sum of fresh per-step
normal draws is added directly, in log space, or in bounded-transform
space according to the strategy, and an unknown strategy raises. -/
def add_process_noise (cfg : Config) (cnt : Constants) (E : MathEnv)
    (rng : NumpyRandom) (noise_coef : List ℚ) (var strategy : String)
    (st : ℕ) : Except String (List ℚ × ℕ) :=
  if cfg.implementation = "Spatial_propagation" then
    Except.ok (noise_coef, st)
  else if cfg.add_dynamic_noise then
    let tmp_proc_noise := cnt.dyn_noise var
    let d := drawNormalList rng 0 tmp_proc_noise noise_coef.length st
    let add_vals := cumsum d.1
    if strategy = "normal" then
      Except.ok (List.zipWith (fun a b => a + b) noise_coef add_vals, d.2)
    else if strategy = "lognormal" then
      Except.ok
        ((List.zipWith (fun a b => a + b) (noise_coef.map E.logF) add_vals).map E.expF,
          d.2)
    else if strategy ∈ (["logitnormal_mult", "logitnormal_adi"] : List String) then
      let tr := (glogit E noise_coef (cnt.lower_bounds var) (cnt.upper_bounds var)).1
      let summed := List.zipWith (fun a b => a + b) tr add_vals
      Except.ok ((gexpit E summed (cnt.lower_bounds var) (cnt.upper_bounds var)).1, d.2)
    else
      Except.error ("Bad perturbation strategy")
  else
    Except.ok (noise_coef, st)

/-- Lookup of one column of the forcing table, modelled as an
association list from variable name to its series. -/
def lookupForcing (f : List (String × List ℚ)) (var : String) : List ℚ :=
  ((f.find? (fun p => p.1 == var)).map Prod.snd).getD []

/-- Replacement of one column of the forcing table. -/
def updateForcing (f : List (String × List ℚ)) (var : String)
    (series : List ℚ) : List (String × List ℚ) :=
  f.map (fun p => if p.1 = var then (p.1, series) else p)

/-- Model of perturb_parameters (met_tools.py lines 282-337) on the
fresh-draw and kalman-update paths.  The forcing table is an association
list from variable name to series; posteriorNoise abstracts the values
produced by create_noise_from_posterior on the load_prev_run path and
gscParam abstracts spatialMuSA.read_parameter on the readGSC path (both
external to the control flow verified here).  The equal-length guard on
the perturbed-variable and strategy lists (lines 297-299) runs before
the loop that perturbs any variable; the loop then draws a coefficient
sequence per variable, overlays process noise, and multiplies or adds it
into the forcing column according to the strategy, accumulating the
noise storage. -/
def perturb_parameters (cfg : Config) (cnt : Constants) (E : MathEnv)
    (rng : NumpyRandom) (main_forcing : List (String × List ℚ))
    (update : Bool) (noise : List ℚ) (readGSC : Bool)
    (gscParam : String → ℚ) (posteriorNoise : String → List ℚ) (st : ℕ) :
    Except String (List (String × List ℚ) × List (String × List ℚ)) :=
  let forcing_copy := main_forcing
  let vars_to_perturbate := cfg.vars_to_perturbate
  let perturbation_strategy := cfg.perturbation_strategy
  let n_steps := ((main_forcing.head?).map (fun p => p.2.length)).getD 0
  if vars_to_perturbate.length ≠ perturbation_strategy.length then
    Except.error ("Length of vars_to_perturbate different to perturbation_strategy")
  else if update = true ∧ vars_to_perturbate.length ≠ noise.length then
    Except.error ("Something wrong with kalman noise")
  else
    let body := fun (acc : List (String × List ℚ) × List (String × List ℚ) × ℕ)
        (idv : ℕ) => do
      let forcing := acc.1
      let storage := acc.2.1
      let stc := acc.2.2
      let var_tmp := vars_to_perturbate.getD idv ""
      let strategy_tmp := perturbation_strategy.getD idv ""
      let nc ←
        if readGSC then
          Except.ok (List.replicate n_steps (gscParam var_tmp), stc)
        else if update then
          Except.ok (List.replicate n_steps (noise.getD idv 0), stc)
        else if cfg.load_prev_run then
          Except.ok (posteriorNoise var_tmp, stc)
        else
          create_noise cfg cnt E rng strategy_tmp n_steps
            (cnt.mean_errors var_tmp) (cnt.sd_errors var_tmp) var_tmp stc
      let pn ← add_process_noise cfg cnt E rng nc.1 var_tmp strategy_tmp nc.2
      let noise_coef := pn.1
      let newSeries :=
        if strategy_tmp ∈ (["lognormal", "logitnormal_mult"] : List String) then
          List.zipWith (fun a b => a * b) (lookupForcing forcing var_tmp) noise_coef
        else
          List.zipWith (fun a b => a + b) (lookupForcing forcing var_tmp) noise_coef
      Except.ok (updateForcing forcing var_tmp newSeries,
        storage ++ [(var_tmp, noise_coef)], pn.2)
    (List.foldlM body (forcing_copy, ([], st))
        (List.range vars_to_perturbate.length)).map
      (fun acc => (acc.1, acc.2.1))

/-- External collaborator calls made by cell_assimilation, in the order
the source issues them. -/
inductive ExtCall where
  | getDatesObs
  | obsArray
  | forcingTable
  | simulationSteps
  | runModelOpenloop
  | other (tag : String)
deriving DecidableEq

/-- The output filename cell_assimilation checks on a restart run
(cell_assim.py lines 43-49). -/
def cell_filename (cfg : Config) (lat_idx lon_idx : ℕ) : String :=
  let base :=
    if cfg.load_prev_run then
      "Reconstructed_cell_" ++ toString lat_idx ++ "_" ++ toString lon_idx ++ ".pkl.blp"
    else
      "cell_" ++ toString lat_idx ++ "_" ++ toString lon_idx ++ ".pkl.blp"
  cfg.output_path ++ "/" ++ base

/-- Model of the entry of cell_assimilation (cell_assim.py lines
28-74): the pure filename computations, the restart-run early return
before any collaborator call, then the observation-provider calls, the
masked-cell return, the model-adapter forcing call, the forcing quality
return, the window planning and the open-loop short circuit.  The body
of the window loop and everything after it is abstracted as the trace
rest.  The first component is none for every early return (the Python
function returns None there) and some () when the run continues into the
loop; the second component is the list of external collaborator calls
made, in order. -/
def cell_assimilation (cfg : Config) (exists_file : String → Bool)
    (obs_masked forcing_has_na all_obs_nan : Bool)
    (lat_idx lon_idx : ℕ) (rest : List ExtCall) :
    Option Unit × List ExtCall :=
  let filename := cell_filename cfg lat_idx lon_idx
  if cfg.restart_run && exists_file filename then
    (none, [])
  else
    let calls0 := [ExtCall.getDatesObs, ExtCall.obsArray]
    if obs_masked then
      (none, calls0)
    else
      let calls1 := calls0 ++ [ExtCall.forcingTable]
      if forcing_has_na then
        (none, calls1)
      else
        let calls2 := calls1 ++ [ExtCall.simulationSteps]
        if (all_obs_nan || cfg.da_algorithm = "deterministic_OL")
            && !cfg.load_prev_run then
          (none, calls2 ++ [ExtCall.runModelOpenloop])
        else
          (some (), calls2 ++ rest)

/-- A map that fixes every member of a list leaves the list unchanged. -/
theorem map_eq_self_of_mem (f : ℚ → ℚ) (l : List ℚ)
    (h : ∀ v ∈ l, f v = v) : l.map f = l := by
  induction l with
  | nil => rfl
  | cons a t ih =>
    simp only [List.map_cons]
    rw [h a (by simp), ih (fun v hv => h v (by simp [hv]))]

/-- The bPmin pass is the same as its pointwise map, whether or not the
membership guard fires. -/
theorem nudge_min_eq_map (E : MathEnv) (bPmin : ℚ) (x : List ℚ) :
    nudge_min E bPmin x =
      x.map (fun v => if v = bPmin then v + |E.spacingF v * 100| else v) := by
  unfold nudge_min
  by_cases h : bPmin ∈ x
  · rw [if_pos h]
  · rw [if_neg h]
    refine (map_eq_self_of_mem _ x fun v hv => ?_).symm
    have hv' : v ≠ bPmin := fun e => h (e ▸ hv)
    simp [hv']

/-- The bPmax pass is the same as its pointwise map, whether or not the
membership guard fires. -/
theorem nudge_max_eq_map (E : MathEnv) (bPmax : ℚ) (x : List ℚ) :
    nudge_max E bPmax x =
      x.map (fun v => if v = bPmax then v - |E.spacingF v * 100| else v) := by
  unfold nudge_max
  by_cases h : bPmax ∈ x
  · rw [if_pos h]
  · rw [if_neg h]
    refine (map_eq_self_of_mem _ x fun v hv => ?_).symm
    have hv' : v ≠ bPmax := fun e => h (e ▸ hv)
    simp [hv']

/-- Both boundary passes together act as the pointwise nudge. -/
theorem boundary_nudge_eq_map (E : MathEnv) (bPmin bPmax : ℚ) (x : List ℚ) :
    boundary_nudge E x bPmin bPmax = x.map (nudgePoint E bPmin bPmax) := by
  unfold boundary_nudge
  rw [nudge_min_eq_map, nudge_max_eq_map, List.map_map]
  rfl

/-- The boundary passes keep the array length. -/
theorem boundary_nudge_length (E : MathEnv) (bPmin bPmax : ℚ) (x : List ℚ) :
    (boundary_nudge E x bPmin bPmax).length = x.length := by
  rw [boundary_nudge_eq_map]
  exact List.length_map x (nudgePoint E bPmin bPmax)

/-- An array with no entry on a bound passes through the boundary guards
unchanged. -/
theorem boundary_nudge_of_not_mem (E : MathEnv) (bPmin bPmax : ℚ)
    (x : List ℚ) (hmin : bPmin ∉ x) (hmax : bPmax ∉ x) :
    boundary_nudge E x bPmin bPmax = x := by
  rw [boundary_nudge_eq_map]
  refine map_eq_self_of_mem _ x fun v hv => ?_
  have h1 : v ≠ bPmin := fun e => hmin (e ▸ hv)
  have h2 : v ≠ bPmax := fun e => hmax (e ▸ hv)
  simp [nudgePoint, h1, h2]

/-- Reading through a map at an in-range index with a default. -/
theorem getD_map_of_lt (f : ℚ → ℚ) (l : List ℚ) (i : ℕ) (d : ℚ)
    (h : i < l.length) : (l.map f).getD i d = f (l.getD i d) := by
  induction l generalizing i with
  | nil => simp at h
  | cons a t ih =>
    cases i with
    | zero => simp
    | succ k =>
      simp only [List.map_cons, List.getD_cons_succ]
      exact ih k (by simpa using h)

/-- C1.  For bounds bPmin < bPmax and an input array whose entries all
lie strictly inside the bounds, composing gexpit after glogit gives back
the input exactly.  The hypothesis hinv is the analytic fact that expit
inverts logit on the open unit interval; hnc states that no transformed
entry happens to coincide with a physical bound, which is the only case
in which the secondary nudge inside gexpit can perturb the round trip
(and then only by the nudge tolerance). -/
theorem glogit_gexpit_round_trip (E : MathEnv) (bPmin bPmax : ℚ)
    (x : List ℚ) (hlt : bPmin < bPmax)
    (hin : ∀ v ∈ x, bPmin < v ∧ v < bPmax)
    (hinv : ∀ p : ℚ, 0 < p → p < 1 → E.expitF (E.logitF p) = p)
    (hnc : ∀ v ∈ (glogit E x bPmin bPmax).1, v ≠ bPmin ∧ v ≠ bPmax) :
    (gexpit E (glogit E x bPmin bPmax).1 bPmin bPmax).1 = x := by
  have hmin : bPmin ∉ x := fun hm => absurd (hin bPmin hm).1 (lt_irrefl _)
  have hmax : bPmax ∉ x := fun hm => absurd (hin bPmax hm).2 (lt_irrefl _)
  have hG : (glogit E x bPmin bPmax).1 =
      x.map (fun v => E.logitF ((v - bPmin) / (bPmax - bPmin))) := by
    unfold glogit
    simp only [boundary_nudge_of_not_mem E bPmin bPmax x hmin hmax,
      List.map_map]
    rfl
  have hmin2 : bPmin ∉ (glogit E x bPmin bPmax).1 := fun hm =>
    absurd rfl (hnc bPmin hm).1
  have hmax2 : bPmax ∉ (glogit E x bPmin bPmax).1 := fun hm =>
    absurd rfl (hnc bPmax hm).2
  unfold gexpit
  simp only [boundary_nudge_of_not_mem E bPmin bPmax _ hmin2 hmax2]
  rw [hG, List.map_map, List.map_map]
  refine map_eq_self_of_mem _ x fun v hv => ?_
  obtain ⟨h1, h2⟩ := hin v hv
  have hd : (0 : ℚ) < bPmax - bPmin := by linarith
  have hp1 : 0 < (v - bPmin) / (bPmax - bPmin) := div_pos (by linarith) hd
  have hp2 : (v - bPmin) / (bPmax - bPmin) < 1 :=
    (div_lt_one hd).mpr (by linarith)
  simp only [Function.comp]
  rw [hinv _ hp1 hp2]
  field_simp

/-- Concrete instantiation of the abstract numerical environment used by
the witnesses: an affine inverse pair standing in for logit and expit on
the unit interval, and a constant positive spacing. -/
def Ewit : MathEnv :=
  ⟨fun t => (t + 1) / 2, fun p => 2 * p - 1, id, id, fun _ => 1 / 1000⟩

/-- Concrete instantiation of the abstract generator used by the
witnesses: seeding stores the seed, a draw returns the mean and advances
the state. -/
def rngWit : NumpyRandom :=
  ⟨id, fun mean _ st => (mean, st + 1), fun mean _ st => (mean, st + 1)⟩

/-- Witness for C1 at bounds (0, 1) and the interior array with the one
entry 2/3: the hypotheses hold there and the round trip is exact. -/
theorem glogit_gexpit_round_trip_witness :
    (gexpit Ewit (glogit Ewit [(2 : ℚ) / 3] 0 1).1 0 1).1 = [(2 : ℚ) / 3] :=
  glogit_gexpit_round_trip Ewit 0 1 [(2 : ℚ) / 3] (by norm_num)
    (by intro v hv; rw [List.mem_singleton] at hv; subst hv; norm_num)
    (by intro p hp hq; show (2 * p - 1 + 1) / 2 = p; ring)
    (by
      have h : (glogit Ewit [(2 : ℚ) / 3] 0 1).1 = [(1 : ℚ) / 3] := by
        norm_num [glogit, boundary_nudge, nudge_min, nudge_max, Ewit]
      rw [h]
      intro v hv
      rw [List.mem_singleton] at hv
      subst hv
      norm_num)

/-- Pointwise nudge of an entry sitting exactly on the lower bound. -/
theorem nudgePoint_at_min (E : MathEnv) (bPmin bPmax : ℚ)
    (hne : bPmin + |E.spacingF bPmin * 100| ≠ bPmax) :
    nudgePoint E bPmin bPmax bPmin = bPmin + |E.spacingF bPmin * 100| := by
  simp [nudgePoint, hne]

/-- Pointwise nudge of an entry sitting exactly on the upper bound. -/
theorem nudgePoint_at_max (E : MathEnv) (bPmin bPmax : ℚ)
    (hlt : bPmin < bPmax) :
    nudgePoint E bPmin bPmax bPmax = bPmax - |E.spacingF bPmax * 100| := by
  have h1 : bPmax ≠ bPmin := hlt.ne'
  simp [nudgePoint, h1]

/-- Pointwise nudge of an entry strictly inside the bounds: untouched. -/
theorem nudgePoint_of_interior (E : MathEnv) (bPmin bPmax v : ℚ)
    (h1 : bPmin < v) (h2 : v < bPmax) :
    nudgePoint E bPmin bPmax v = v := by
  simp [nudgePoint, h1.ne', h2.ne]

/-- C2.  For bounds bPmin < bPmax, an input array whose entries lie
within the closed bounds (boundary entries allowed), and a spacing-based
nudge that is positive and smaller than the width of the bounds, glogit
applies the logit only to scaled arguments strictly inside the open unit
interval, on which the true logit is finite (no infinity and no NaN):
the returned array is the logit of the min-max scaling of the nudged
array, every scaled value lies strictly between 0 and 1, and entries
strictly inside the bounds reach the scaling with no nudge at all. -/
theorem glogit_bound_entries_safe (E : MathEnv) (bPmin bPmax : ℚ)
    (x : List ℚ) (hlt : bPmin < bPmax)
    (hrange : ∀ v ∈ x, bPmin ≤ v ∧ v ≤ bPmax)
    (hpos_min : 0 < |E.spacingF bPmin * 100|)
    (hsmall_min : |E.spacingF bPmin * 100| < bPmax - bPmin)
    (hpos_max : 0 < |E.spacingF bPmax * 100|)
    (hsmall_max : |E.spacingF bPmax * 100| < bPmax - bPmin) :
    (glogit E x bPmin bPmax).1 =
      ((boundary_nudge E x bPmin bPmax).map
        (fun v => (v - bPmin) / (bPmax - bPmin))).map E.logitF
    ∧ (∀ s ∈ (boundary_nudge E x bPmin bPmax).map
          (fun v => (v - bPmin) / (bPmax - bPmin)), 0 < s ∧ s < 1)
    ∧ (∀ i, i < x.length → bPmin < x.getD i 0 → x.getD i 0 < bPmax →
        (boundary_nudge E x bPmin bPmax).getD i 0 = x.getD i 0) := by
  have hd : (0 : ℚ) < bPmax - bPmin := by linarith
  refine ⟨rfl, ?_, ?_⟩
  · intro s hs
    rw [boundary_nudge_eq_map, List.map_map] at hs
    obtain ⟨v, hv, rfl⟩ := List.mem_map.1 hs
    obtain ⟨hv1, hv2⟩ := hrange v hv
    have hopen : bPmin < nudgePoint E bPmin bPmax v ∧
        nudgePoint E bPmin bPmax v < bPmax := by
      by_cases hcmin : v = bPmin
      · subst hcmin
        rw [nudgePoint_at_min E v bPmax (by intro h; rw [← h] at hsmall_min; linarith)]
        constructor <;> linarith
      · by_cases hcmax : v = bPmax
        · subst hcmax
          rw [nudgePoint_at_max E bPmin v hlt]
          constructor <;> linarith
        · rw [nudgePoint_of_interior E bPmin bPmax v
            (lt_of_le_of_ne hv1 (fun e => hcmin e.symm))
            (lt_of_le_of_ne hv2 hcmax)]
          exact ⟨lt_of_le_of_ne hv1 (fun e => hcmin e.symm),
            lt_of_le_of_ne hv2 hcmax⟩
    simp only [Function.comp]
    exact ⟨div_pos (by linarith [hopen.1]) hd,
      (div_lt_one hd).mpr (by linarith [hopen.2])⟩
  · intro i hi h1 h2
    rw [boundary_nudge_eq_map, getD_map_of_lt _ _ _ _ hi]
    exact nudgePoint_of_interior E bPmin bPmax _ h1 h2

/-- Witness for C2 at bounds (0, 1) and the array with entries on both
bounds: the lower-bound entry scales to the strictly interior value
1/10, and the strictly interior entry 1/2 at index 1 is not nudged. -/
theorem glogit_bound_entries_safe_witness :
    ((0 : ℚ) < 1 / 10 ∧ (1 : ℚ) / 10 < 1)
    ∧ (boundary_nudge Ewit [0, (1 : ℚ) / 2, 1] 0 1).getD 1 0 =
        ([0, (1 : ℚ) / 2, 1] : List ℚ).getD 1 0 := by
  have h := glogit_bound_entries_safe Ewit 0 1 [0, (1 : ℚ) / 2, 1]
    (by norm_num) (by intro v hv; fin_cases hv <;> norm_num)
    (by norm_num [Ewit, abs_of_pos]) (by norm_num [Ewit, abs_of_pos])
    (by norm_num [Ewit, abs_of_pos]) (by norm_num [Ewit, abs_of_pos])
  refine ⟨h.2.1 ((1 : ℚ) / 10) ?_, h.2.2 1 (by norm_num) (by norm_num) (by norm_num)⟩
  norm_num [boundary_nudge, nudge_min, nudge_max, Ewit, abs_of_pos]

/-- C10.  glogit and gexpit mutate the array passed to them in place:
the second component of each model result is the final contents of the
argument array.  For a positive nudge whose lower-bound value does not
land on the upper bound, every entry equal to bPmin holds the
upward-nudged value afterwards (no longer bPmin), every entry equal to
bPmax holds the downward-nudged value (no longer bPmax), and an array
with no entry on either bound comes back unmodified.  The facts are
stated for the glogit argument x and the gexpit argument xt alike, since
the source runs the same two guard passes in both functions. -/
theorem glogit_gexpit_mutation (E : MathEnv) (bPmin bPmax : ℚ)
    (x xt : List ℚ) (hlt : bPmin < bPmax)
    (hpos_min : 0 < |E.spacingF bPmin * 100|)
    (hpos_max : 0 < |E.spacingF bPmax * 100|)
    (hne : bPmin + |E.spacingF bPmin * 100| ≠ bPmax) :
    ((glogit E x bPmin bPmax).2 = boundary_nudge E x bPmin bPmax
      ∧ (gexpit E xt bPmin bPmax).2 = boundary_nudge E xt bPmin bPmax)
    ∧ ((glogit E x bPmin bPmax).2.length = x.length
      ∧ (gexpit E xt bPmin bPmax).2.length = xt.length)
    ∧ (∀ i, i < x.length →
        (x.getD i 0 = bPmin →
          (glogit E x bPmin bPmax).2.getD i 0 =
              bPmin + |E.spacingF bPmin * 100| ∧
            (glogit E x bPmin bPmax).2.getD i 0 ≠ bPmin)
        ∧ (x.getD i 0 = bPmax →
          (glogit E x bPmin bPmax).2.getD i 0 =
              bPmax - |E.spacingF bPmax * 100| ∧
            (glogit E x bPmin bPmax).2.getD i 0 ≠ bPmax))
    ∧ (∀ i, i < xt.length →
        (xt.getD i 0 = bPmin →
          (gexpit E xt bPmin bPmax).2.getD i 0 =
              bPmin + |E.spacingF bPmin * 100| ∧
            (gexpit E xt bPmin bPmax).2.getD i 0 ≠ bPmin)
        ∧ (xt.getD i 0 = bPmax →
          (gexpit E xt bPmin bPmax).2.getD i 0 =
              bPmax - |E.spacingF bPmax * 100| ∧
            (gexpit E xt bPmin bPmax).2.getD i 0 ≠ bPmax))
    ∧ ((bPmin ∉ x → bPmax ∉ x → (glogit E x bPmin bPmax).2 = x)
      ∧ (bPmin ∉ xt → bPmax ∉ xt → (gexpit E xt bPmin bPmax).2 = xt)) := by
  have key : ∀ y : List ℚ, ∀ i, i < y.length →
      (y.getD i 0 = bPmin →
        (boundary_nudge E y bPmin bPmax).getD i 0 =
            bPmin + |E.spacingF bPmin * 100| ∧
          (boundary_nudge E y bPmin bPmax).getD i 0 ≠ bPmin)
      ∧ (y.getD i 0 = bPmax →
        (boundary_nudge E y bPmin bPmax).getD i 0 =
            bPmax - |E.spacingF bPmax * 100| ∧
          (boundary_nudge E y bPmin bPmax).getD i 0 ≠ bPmax) := by
    intro y i hi
    rw [boundary_nudge_eq_map, getD_map_of_lt _ _ _ _ hi]
    constructor
    · intro hv
      rw [hv, nudgePoint_at_min E bPmin bPmax hne]
      exact ⟨rfl, fun h => absurd (by linarith [hpos_min] : (0 : ℚ) < 0) (lt_irrefl 0)⟩
    · intro hv
      rw [hv, nudgePoint_at_max E bPmin bPmax hlt]
      exact ⟨rfl, fun h => absurd (by linarith [hpos_max] : (0 : ℚ) < 0) (lt_irrefl 0)⟩
  refine ⟨⟨rfl, rfl⟩, ⟨?_, ?_⟩, ?_, ?_, ⟨?_, ?_⟩⟩
  · exact boundary_nudge_length E bPmin bPmax x
  · exact boundary_nudge_length E bPmin bPmax xt
  · exact key x
  · exact key xt
  · exact boundary_nudge_of_not_mem E bPmin bPmax x
  · exact boundary_nudge_of_not_mem E bPmin bPmax xt

/-- Witness for C10 at bounds (0, 1): in the array passed to glogit the
entry 0 at index 0 is replaced in place with the nudged value 1/10, and
in the array passed to gexpit the entry 1 at index 1 no longer holds 1
after the call. -/
theorem glogit_gexpit_mutation_witness :
    (glogit Ewit [0, (1 : ℚ) / 2, 1] 0 1).2.getD 0 0 =
        0 + |Ewit.spacingF 0 * 100|
    ∧ (glogit Ewit [0, (1 : ℚ) / 2, 1] 0 1).2.getD 0 0 ≠ 0
    ∧ (gexpit Ewit [(0 : ℚ), 1] 0 1).2.getD 1 0 ≠ 1 := by
  have h := glogit_gexpit_mutation Ewit 0 1 [0, (1 : ℚ) / 2, 1] [(0 : ℚ), 1]
    (by norm_num) (by norm_num [Ewit, abs_of_pos])
    (by norm_num [Ewit, abs_of_pos]) (by norm_num [Ewit, abs_of_pos])
  exact ⟨((h.2.2.1 0 (by norm_num)).1 (by norm_num)).1,
    ((h.2.2.1 0 (by norm_num)).1 (by norm_num)).2,
    ((h.2.2.2.1 1 (by norm_num)).2 (by norm_num)).2⟩

/-- C3.  Evaluation of the posterior-noise reconstruction at the mean
series [5, 5, 7], whose prior windows have lengths 2 and 1: the loop
emits counts[0] = 2 steps for every segment (met_tools.py line 209), so
the reconstruction is [(5, 2), (7, 2)] with total length 4, which does
not replicate the prior windowing structure of the 3-step series. -/
theorem create_noise_from_posterior_counts_bug :
    create_noise_from_posterior [5, 5, 7] = Except.ok [(5, 2), (7, 2)]
    ∧ (([(5, 2), (7, 2)] : List (ℚ × ℕ)).map Prod.snd).sum ≠
        ([5, 5, 7] : List ℚ).length :=
  ⟨rfl, by decide⟩

/-- C4.  Evaluation of the posterior-noise reconstruction at the mean
series [1, 2, 3], in which every per-step mean is distinct: the source
takes the dynamic-noise branch, sets counts to the plain int
len(posteriors), and then evaluates len(counts) at line 192, so the call
raises TypeError instead of returning a full-length sequence. -/
theorem create_noise_from_posterior_dynamic_bug :
    create_noise_from_posterior [1, 2, 3] =
      Except.error ("TypeError: object of type int has no len") :=
  rfl

/-- C5.  With a configured seed, create_noise is a deterministic
function of its arguments: the generator state is reset from the seed
before the single draw, so two calls with identical arguments agree
whatever generator states they start from. -/
theorem create_noise_seed_deterministic (cfg : Config) (cnt : Constants)
    (E : MathEnv) (rng : NumpyRandom) (strategy : String) (n_steps : ℕ)
    (mean std_dev : ℚ) (var : String) (s : ℕ)
    (hseed : cfg.seed = some s) (st1 st2 : ℕ) :
    create_noise cfg cnt E rng strategy n_steps mean std_dev var st1 =
      create_noise cfg cnt E rng strategy n_steps mean std_dev var st2 := by
  unfold create_noise np_seed_reset
  rw [hseed]

/-- Concrete configuration used by the witnesses: seed 42, one perturbed
variable with the normal strategy, no dynamic noise, point-scale run. -/
def cfgWit : Config :=
  ⟨some 42, "point_scale", false, false, false, false, false,
    "out", "ens", "rst", "PBS", ["t2m"], ["normal"]⟩

/-- Concrete constants used by the witnesses: bounds (0, 1), zero mean
error, unit standard error, zero process noise. -/
def cntWit : Constants :=
  ⟨fun _ => 1, fun _ => 0, fun _ => 0, fun _ => 1, fun _ => 0⟩

/-- Witness for C5: the two calls agree even though they start from
generator states 0 and 99. -/
theorem create_noise_seed_deterministic_witness :
    create_noise cfgWit cntWit Ewit rngWit "normal" 5 0 1 "t2m" 0 =
      create_noise cfgWit cntWit Ewit rngWit "normal" 5 0 1 "t2m" 99 :=
  create_noise_seed_deterministic cfgWit cntWit Ewit rngWit "normal" 5 0 1
    "t2m" 42 rfl 0 99

/-- C6.  Under the normal strategy create_noise draws exactly one scalar
from the normal distribution with the given mean and standard deviation
and broadcasts it: the result is the n_steps-fold replication of that
single draw, its length is n_steps, and all entries equal the draw. -/
theorem create_noise_normal_broadcast (cfg : Config) (cnt : Constants)
    (E : MathEnv) (rng : NumpyRandom) (n_steps : ℕ) (mean std_dev : ℚ)
    (var : String) (st : ℕ) (h : 1 ≤ n_steps) :
    create_noise cfg cnt E rng "normal" n_steps mean std_dev var st =
      Except.ok
        (List.replicate n_steps
          ((rng.normalFn mean std_dev (np_seed_reset cfg rng st)).1),
          (rng.normalFn mean std_dev (np_seed_reset cfg rng st)).2)
    ∧ (List.replicate n_steps
        ((rng.normalFn mean std_dev (np_seed_reset cfg rng st)).1)).length =
          n_steps
    ∧ ∀ y ∈ List.replicate n_steps
        ((rng.normalFn mean std_dev (np_seed_reset cfg rng st)).1),
          y = (rng.normalFn mean std_dev (np_seed_reset cfg rng st)).1 :=
  ⟨rfl, List.length_replicate _ _, fun _ hy => List.eq_of_mem_replicate hy⟩

/-- Witness for C6 with 5 steps and the concrete generator: the single
draw is the mean 0, broadcast to all 5 steps. -/
theorem create_noise_normal_broadcast_witness :
    (1 ≤ 5)
    ∧ create_noise cfgWit cntWit Ewit rngWit "normal" 5 0 1 "t2m" 7 =
        Except.ok (List.replicate 5 (0 : ℚ), 43) := by
  have h := (create_noise_normal_broadcast cfgWit cntWit Ewit rngWit 5 0 1
    "t2m" 7 (by norm_num)).1
  exact ⟨by norm_num, by simpa [rngWit, np_seed_reset, cfgWit] using h⟩

/-- C7.  create_noise succeeds exactly on the four supported strategy
names and fails on every other name with the raised configuration
message, returning no sequence. -/
theorem create_noise_strategy_dispatch (cfg : Config) (cnt : Constants)
    (E : MathEnv) (rng : NumpyRandom) (strategy : String) (n_steps : ℕ)
    (mean std_dev : ℚ) (var : String) (st : ℕ) :
    (strategy ∈ (["normal", "lognormal", "logitnormal_mult",
        "logitnormal_adi"] : List String) →
      ∃ out, create_noise cfg cnt E rng strategy n_steps mean std_dev var st =
        Except.ok out)
    ∧ (strategy ∉ (["normal", "lognormal", "logitnormal_mult",
        "logitnormal_adi"] : List String) →
      create_noise cfg cnt E rng strategy n_steps mean std_dev var st =
        Except.error ("choose the shape of the perturbation parameters")) := by
  constructor
  · intro hmem
    simp only [List.mem_cons, List.not_mem_nil, or_false] at hmem
    rcases hmem with h | h | h | h <;> subst h <;> exact ⟨_, rfl⟩
  · intro hmem
    have h1 : strategy ≠ "normal" := fun e => hmem (by rw [e]; simp)
    have h2 : strategy ≠ "lognormal" := fun e => hmem (by rw [e]; simp)
    have hm : strategy ∉ (["logitnormal_mult", "logitnormal_adi"] :
        List String) := fun hx =>
      hmem (List.mem_cons_of_mem _ (List.mem_cons_of_mem _ hx))
    unfold create_noise
    rw [if_neg h1, if_neg h2, if_neg hm]

/-- Witness for C7: an unsupported name fails with the configuration
message and a supported name succeeds. -/
theorem create_noise_strategy_dispatch_witness :
    create_noise cfgWit cntWit Ewit rngWit "weird" 5 0 1 "t2m" 0 =
      Except.error ("choose the shape of the perturbation parameters")
    ∧ ∃ out, create_noise cfgWit cntWit Ewit rngWit "normal" 5 0 1 "t2m" 0 =
        Except.ok out := by
  have hbad := create_noise_strategy_dispatch cfgWit cntWit Ewit rngWit
    "weird" 5 0 1 "t2m" 0
  have hgood := create_noise_strategy_dispatch cfgWit cntWit Ewit rngWit
    "normal" 5 0 1 "t2m" 0
  exact ⟨hbad.2 (by simp), hgood.1 (by simp)⟩

/-- C8.  On a restart run whose expected output file already exists,
cell_assimilation returns immediately: the result is the Python None
with an empty trace of collaborator calls, so in particular neither the
observation provider nor the model adapter is touched and no state
changes. -/
theorem cell_assimilation_restart_skip (cfg : Config)
    (exists_file : String → Bool)
    (obs_masked forcing_has_na all_obs_nan : Bool) (lat_idx lon_idx : ℕ)
    (rest : List ExtCall) (hrs : cfg.restart_run = true)
    (hex : exists_file (cell_filename cfg lat_idx lon_idx) = true) :
    cell_assimilation cfg exists_file obs_masked forcing_has_na all_obs_nan
        lat_idx lon_idx rest = (none, [])
    ∧ ExtCall.getDatesObs ∉ (cell_assimilation cfg exists_file obs_masked
        forcing_has_na all_obs_nan lat_idx lon_idx rest).2
    ∧ ExtCall.obsArray ∉ (cell_assimilation cfg exists_file obs_masked
        forcing_has_na all_obs_nan lat_idx lon_idx rest).2
    ∧ ExtCall.forcingTable ∉ (cell_assimilation cfg exists_file obs_masked
        forcing_has_na all_obs_nan lat_idx lon_idx rest).2 := by
  have h : cell_assimilation cfg exists_file obs_masked forcing_has_na
      all_obs_nan lat_idx lon_idx rest = (none, []) := by
    simp [cell_assimilation, hrs, hex]
  refine ⟨h, ?_, ?_, ?_⟩ <;> simp [h]

/-- Concrete configuration for the C8 witness: a restart run. -/
def cfgWit8 : Config :=
  ⟨some 42, "point_scale", false, false, true, false, false,
    "out", "ens", "rst", "PBS", ["t2m"], ["normal"]⟩

/-- Witness for C8: with the output file present, the run at cell (1, 2)
returns at once with no collaborator call. -/
theorem cell_assimilation_restart_skip_witness :
    cell_assimilation cfgWit8 (fun _ => true) false false false 1 2 [] =
      (none, []) :=
  (cell_assimilation_restart_skip cfgWit8 (fun _ => true) false false false
    1 2 [] rfl rfl).1

/-- C9.  When the perturbed-variable list and the strategy list have
different lengths, perturb_parameters raises before its loop runs: the
model returns the raised message and no perturbed forcing or noise
storage is produced. -/
theorem perturb_parameters_length_mismatch (cfg : Config) (cnt : Constants)
    (E : MathEnv) (rng : NumpyRandom)
    (main_forcing : List (String × List ℚ)) (update : Bool)
    (noise : List ℚ) (readGSC : Bool) (gscParam : String → ℚ)
    (posteriorNoise : String → List ℚ) (st : ℕ)
    (hlen : cfg.vars_to_perturbate.length ≠ cfg.perturbation_strategy.length) :
    perturb_parameters cfg cnt E rng main_forcing update noise readGSC
        gscParam posteriorNoise st =
      Except.error
        ("Length of vars_to_perturbate different to perturbation_strategy") := by
  simp [perturb_parameters, hlen]

/-- Concrete configuration for the C9 witness: three perturbed variables
against two strategies. -/
def cfgWit9 : Config :=
  ⟨none, "point_scale", false, false, false, false, false,
    "out", "ens", "rst", "PBS", ["t2m", "prec", "sw"], ["normal", "lognormal"]⟩

/-- Witness for C9 at the spec scenario of list lengths 3 and 2. -/
theorem perturb_parameters_length_mismatch_witness :
    perturb_parameters cfgWit9 cntWit Ewit rngWit [("t2m", [1, 2, 3])] false
        [] false (fun _ => 0) (fun _ => []) 0 =
      Except.error
        ("Length of vars_to_perturbate different to perturbation_strategy") :=
  perturb_parameters_length_mismatch cfgWit9 cntWit Ewit rngWit
    [("t2m", [1, 2, 3])] false [] false (fun _ => 0) (fun _ => []) 0
    (by simp [cfgWit9])
